import Mathlib

/-!
Verification of the http-mongodb gateway dispatch engine.

Shallow embedding of `src/index.js`: an Express HTTP gateway exposing the
MongoDB driver surface (client / database / collection) over POST paths.
JavaScript runtime values are modelled by an inductive tree `JSValue`;
the Express route table is modelled by the total function `handle`, with
the MongoDB driver abstracted as an environment `Env` supplying the
outcome of `MongoClient.connect` and of the reflective action invocation.
Node builtins used by the source (`Buffer.from(_, "base64")`,
`Buffer.toString("utf-8")`, `String.prototype.split`/`join`/`shift`,
`Array.isArray`, truthiness) are embedded directly.
-/

namespace HttpMongo

/-- JavaScript runtime values as seen by the gateway. Functions are kept
abstract by name; cycles are not representable in this tree model (the
`fclone` of the source exists to break them). -/
inductive JSValue where
  | undefined
  | null
  | bool (b : Bool)
  | num (n : Int)
  | str (s : String)
  | fn (name : String)
  | arr (elems : List JSValue)
  | obj (fields : List (String × JSValue))

/-- JavaScript truthiness (`if (x)`), restricted to the values of the model.
`NaN` does not arise (results come from JSON / the driver model). -/
def truthy : JSValue → Bool
  | .undefined => false
  | .null => false
  | .bool b => b
  | .num n => n != 0
  | .str s => s ≠ ""
  | .fn _ => true
  | .arr _ => true
  | .obj _ => true

/-- Model of `Array.isArray`. -/
def isArray : JSValue → Bool
  | .arr _ => true
  | _ => false

/-- The credential pair built in the `app.post("/*")` middleware. -/
structure Credential where
  user : String
  password : String
deriving DecidableEq, Repr

/-! Node builtins: base64 decoding and UTF-8 decoding.

`Buffer.from(s, "base64")` maps base64 text to bytes, ignoring characters
outside the base64 alphabet (including padding `=`); `buf.toString("utf-8")`
decodes bytes as UTF-8 with U+FFFD replacement on invalid sequences. -/

/-- Value of one base64 alphabet character; `none` for characters outside
the alphabet (Node ignores those, including `=` padding). -/
def b64Val (c : Char) : Option Nat :=
  if 'A' ≤ c ∧ c ≤ 'Z' then some (c.toNat - 65)
  else if 'a' ≤ c ∧ c ≤ 'z' then some (c.toNat - 97 + 26)
  else if '0' ≤ c ∧ c ≤ '9' then some (c.toNat - 48 + 52)
  else if c = '+' then some 62
  else if c = '/' then some 63
  else none

/-- Reassemble 6-bit groups into bytes (Node `Buffer.from(_, "base64")`
keeps every fully determined byte of a trailing partial quantum). -/
def sextetsToBytes : List Nat → List Nat
  | a :: b :: c :: d :: rest =>
      (a * 4 + b / 16) :: ((b % 16) * 16 + c / 4) :: ((c % 4) * 64 + d)
        :: sextetsToBytes rest
  | [a, b] => [a * 4 + b / 16]
  | [a, b, c] => [a * 4 + b / 16, (b % 16) * 16 + c / 4]
  | _ => []

/-- Model of `Buffer.from(s, "base64")` as a byte list. -/
def base64Decode (s : String) : List Nat :=
  sextetsToBytes (s.toList.filterMap b64Val)

/-- A UTF-8 continuation byte. -/
def isCont (b : Nat) : Bool := 0x80 ≤ b && b < 0xC0

/-- The U+FFFD replacement character emitted on malformed UTF-8. -/
def replChar : Char := Char.ofNat 0xFFFD

/-- UTF-8 decoding worker; `fuel` bounds the recursion and equals the input
length at the top-level call, so it never runs out before the list does. -/
def utf8DecodeAux : Nat → List Nat → List Char
  | 0, _ => []
  | _, [] => []
  | fuel + 1, b :: rest =>
    if b < 0x80 then
      Char.ofNat b :: utf8DecodeAux fuel rest
    else if 0xC2 ≤ b && b ≤ 0xDF then
      match rest with
      | b2 :: rest2 =>
        if isCont b2 then
          Char.ofNat ((b - 0xC0) * 64 + (b2 - 0x80)) :: utf8DecodeAux fuel rest2
        else replChar :: utf8DecodeAux fuel rest
      | [] => [replChar]
    else if 0xE0 ≤ b && b ≤ 0xEF then
      match rest with
      | b2 :: b3 :: rest3 =>
        if isCont b2 && isCont b3 then
          let cp := (b - 0xE0) * 4096 + (b2 - 0x80) * 64 + (b3 - 0x80)
          if 0x800 ≤ cp && !(0xD800 ≤ cp && cp ≤ 0xDFFF) then
            Char.ofNat cp :: utf8DecodeAux fuel rest3
          else replChar :: utf8DecodeAux fuel rest
        else replChar :: utf8DecodeAux fuel rest
      | _ => [replChar]
    else if 0xF0 ≤ b && b ≤ 0xF4 then
      match rest with
      | b2 :: b3 :: b4 :: rest4 =>
        if isCont b2 && isCont b3 && isCont b4 then
          let cp := (b - 0xF0) * 262144 + (b2 - 0x80) * 4096
                      + (b3 - 0x80) * 64 + (b4 - 0x80)
          if 0x10000 ≤ cp && cp ≤ 0x10FFFF then
            Char.ofNat cp :: utf8DecodeAux fuel rest4
          else replChar :: utf8DecodeAux fuel rest
        else replChar :: utf8DecodeAux fuel rest
      | _ => [replChar]
    else
      replChar :: utf8DecodeAux fuel rest

/-- Model of `buf.toString("utf-8")` of a byte list, as a character list. -/
def utf8Decode (l : List Nat) : List Char :=
  utf8DecodeAux l.length l

/-- JavaScript `str.split(sep)` for a one-character separator, over character
lists; like JS, the result is always non-empty and `"".split(c) = [""]`. -/
def splitOnChar (c : Char) : List Char → List (List Char)
  | [] => [[]]
  | x :: xs =>
    if x = c then [] :: splitOnChar c xs
    else (x :: (splitOnChar c xs).headD []) :: (splitOnChar c xs).drop 1

/-- First occurrence of `sep` inside a character list: the part strictly
before it and the part strictly after it, or `none` when absent. -/
def findSplit (sep : List Char) : List Char → Option (List Char × List Char)
  | [] => none
  | x :: xs =>
    if List.isPrefixOf sep (x :: xs) then
      some ([], List.drop sep.length (x :: xs))
    else
      match findSplit sep xs with
      | some (pre, post) => some (x :: pre, post)
      | none => none

/-- Fuel-bounded worker for JavaScript `str.split(sep)` with a multi-character
separator; each step consumes at least one character (`sep` is non-empty at
every use site), so fuel `l.length + 1` is never exhausted. -/
def splitOnListFuel : Nat → List Char → List Char → List (List Char)
  | 0, _, l => [l]
  | fuel + 1, sep, l =>
    match findSplit sep l with
    | none => [l]
    | some (pre, post) => pre :: splitOnListFuel fuel sep post

/-- JavaScript `s.split(sep)` for a non-empty string separator. -/
def jsSplit (sep s : String) : List String :=
  (splitOnListFuel (s.toList.length + 1) sep.toList s.toList).map String.mk

/-- JavaScript `s.toLowerCase()`, restricted to ASCII case mapping (the only
strings it is applied to — HTTP method names and driver error messages —
are ASCII). -/
def jsToLower (s : String) : String :=
  String.mk (s.toList.map Char.toLower)

/-- Model of `authorization.split("Basic ").join("")`: removes every
occurrence of the literal `"Basic "`. -/
def stripBasic (h : String) : String :=
  String.join (jsSplit "Basic " h)

/-- The decoded credential text:
`Buffer.from(h.split("Basic ").join(""), "base64").toString("utf-8")`. -/
def decodeHeader (h : String) : List Char :=
  utf8Decode (base64Decode (stripBasic h))

/-- Credential extraction from an `Authorization` header value, as in the
`app.post("/*")` middleware: decode, split on `":"`, `shift()` the user,
`join("")` the rest as the password. -/
def extractAuth (h : String) : Credential :=
  let parts := splitOnChar ':' (decodeHeader h)
  { user := String.mk (parts.headD [])
    password := String.mk (parts.drop 1).flatten }

/-! Dispatch targets, driver environment, result normalization. -/

/-- The three dispatch levels of the gateway: the client object, a named
database (`client.db(db_name)`), or a named collection
(`database.collection(collection_name)`). -/
inductive Target where
  | client
  | db (name : String)
  | coll (dbName collName : String)
deriving DecidableEq, Repr

/-- A raw action result: either a direct value or a driver cursor holding a
stream of elements (`object.constructor.name === "Cursor"`). -/
inductive RawResult where
  | direct (v : JSValue)
  | cursor (elems : List JSValue)

/-- The MongoDB driver and network, abstracted: the outcome of
`MongoClient.connect(config.connection, {...config.client, auth})` given the
per-request credential, and the outcome of the reflective invocation
`target[action](...args)`. An `Except.error m` models a thrown error whose
`.message` is `m` — including the `TypeError` thrown when `target[action]`
is not a function. -/
structure Env where
  connect : Option Credential → Except String Unit
  invoke : Target → String → List JSValue → Except String RawResult

mutual

/-- Model of `fclone(object)`: a deep copy of the value graph. On this tree
model (no cycles expressible) it preserves structure; functions pass through
unchanged, exactly as in the library (`typeof f !== "object"`). -/
def fclone : JSValue → JSValue
  | .undefined => .undefined
  | .null => .null
  | .bool b => .bool b
  | .num n => .num n
  | .str s => .str s
  | .fn name => .fn name
  | .arr xs => .arr (fcloneList xs)
  | .obj fs => .obj (fcloneFields fs)

/-- Element-wise `fclone` of an array. -/
def fcloneList : List JSValue → List JSValue
  | [] => []
  | x :: xs => fclone x :: fcloneList xs

/-- Field-wise `fclone` of an object. -/
def fcloneFields : List (String × JSValue) → List (String × JSValue)
  | [] => []
  | (k, v) :: fs => (k, fclone v) :: fcloneFields fs

end

/-- Reading `object.constructor.name`: `Except.error` models the `TypeError` thrown
when `object` is `null` or `undefined` (no `.constructor` property). -/
def constructorName : JSValue → Except String String
  | .undefined => .error "Cannot read properties of undefined (reading constructor)"
  | .null => .error "Cannot read properties of null (reading constructor)"
  | .bool _ => .ok "Boolean"
  | .num _ => .ok "Number"
  | .str _ => .ok "String"
  | .fn _ => .ok "Function"
  | .arr _ => .ok "Array"
  | .obj _ => .ok "Object"

/-- Model of the function `parse(object)` of the source: when `object.constructor.name` is
`"Cursor"`, materialize via `await object.toArray()`; then `fclone` the
result. Reading `.constructor` of `null`/`undefined` throws, modelled as
`Except.error`. -/
def parse : RawResult → Except String JSValue
  | .cursor elems => .ok (fclone (.arr elems))
  | .direct v =>
    match constructorName v with
    | .error m => .error m
    | .ok _ => .ok (fclone v)

/-- The argument spread `target[action](...req.body)`. Only values that pass
the body guard reach this point: arrays spread element-wise, strings spread
into one-character strings, and the remaining (falsy) values throw a
`TypeError` because they are not iterable. -/
def spreadArgs : JSValue → Except String (List JSValue)
  | .arr xs => .ok xs
  | .str s => .ok (s.toList.map (fun c => JSValue.str (String.mk [c])))
  | _ => .error "req.body is not iterable"

/-! The error envelope. -/

/-- The body built by `error(reason, context, status, response)`:
`{ error: { reason, ...context, status } }`. A `null` context spreads to no
fields, so callers passing `null` are modelled with an empty context list. -/
def errorObject (reason : String) (context : List (String × JSValue))
    (status : Nat) : JSValue :=
  .obj [("error", .obj (("reason", JSValue.str reason)
    :: context ++ [("status", JSValue.num (status : Int))]))]

/-- An HTTP response as passed to `response.status(s); response.json(body)`. -/
structure Resp where
  status : Nat
  body : JSValue

/-! Route matching.

Express tries the registered POST routes in order; the routes that produce a
response are `"/_:action/"`, `"/:db_name/_:action/"`,
`"/:db_name/:collection_name/_:action/"` and the fallback `"*"`. A named
parameter matches one non-empty path segment without slashes, and `_:action`
matches a segment that is `"_"` followed by a non-empty action name. The
three action routes are mutually exclusive (they need exactly 1, 2 and 3
segments respectively), so matching is a function of the segment list. -/

/-- A segment matching the `_:action` pattern: a literal `_` followed by at
least one character. -/
def isActionSeg (s : String) : Bool :=
  match s.toList with
  | c :: rest => c = '_' && !rest.isEmpty
  | [] => false

/-- The action name of an action segment: everything after the leading `_`. -/
def segAction (s : String) : String :=
  String.mk (s.toList.drop 1)

/-- The dispatch target and action selected by the Express route table for a
POST path, or `none` when only the `app.post("*")` fallback matches. -/
def route : List String → Option (Target × String)
  | [a] =>
      if isActionSeg a then some (Target.client, segAction a) else none
  | [d, a] =>
      if d ≠ "" && isActionSeg a then some (Target.db d, segAction a)
      else none
  | [d, c, a] =>
      if d ≠ "" && c ≠ "" && isActionSeg a then
        some (Target.coll d c, segAction a)
      else none
  | _ => none

/-! The request pipeline. -/

/-- An incoming HTTP request: method, path split into its non-trailing-slash
segments, the raw `Authorization` header (or absence), and the JSON body as
decoded by `express.json()`. -/
structure Request where
  method : String
  segments : List String
  authorization : Option String
  body : JSValue

/-- The credential handed to `MongoClient.connect`: `null` unless the
`Authorization` header is present and truthy, else `extractAuth` of it. -/
def authOf (req : Request) : Option Credential :=
  match req.authorization with
  | some a => if a = "" then none else some (extractAuth a)
  | none => none

/-- Post-processing of `err.message` on the connection-failure path: when the
message mentions `MongoError`, keep only the text between `"[MongoError: "`
and the next newline, delete the dots, and lower-case it. When the message
contains `MongoError` but not `"[MongoError: "`, indexing `[1]` yields
`undefined` and calling `.split` on it throws — modelled as `Except.error`,
leaving the request without a response. -/
def normalizeConnMsg (message : String) : Except String String :=
  if 1 < (jsSplit "MongoError" message).length then
    match (jsSplit "[MongoError: " message).drop 1 with
    | [] => .error "Cannot read properties of undefined (reading split)"
    | rest :: _ =>
      .ok (jsToLower (String.join (jsSplit "." ((jsSplit "\n" rest).headD ""))))
  else
    .ok message

/-- The observable outcome of one sequential run of the route table:
the response written (or `none` when the handler chain threw without
responding), whether `MongoClient.connect` was attempted, and the
invocation actually performed (target, action, arguments), if any. -/
structure Outcome where
  response : Option Resp
  connected : Bool
  invoked : Option (Target × String × List JSValue)

/-- The Express route table of the gateway, run sequentially on one request
(the racing timeout guard is modelled separately, see `runRace`):
non-POST methods fall through to the final `app.all("*")` (405);
`app.post("/*")` rejects a truthy non-array body (400) before connecting,
then connects with the extracted credential (failure: 400 with the
normalized message); the action routes invoke `target[action](...req.body)`
and respond 200 with `parse` of the result, mapping any thrown error to 404
`not_found` carrying the action and the message; the POST fallback responds
404 `not_found`. -/
def handle (env : Env) (req : Request) : Outcome :=
  if req.method ≠ "POST" then
    { response := some ⟨405, errorObject "method_not_allowed"
        [("method", JSValue.str (jsToLower req.method))] 405⟩
      connected := false, invoked := none }
  else if truthy req.body && !isArray req.body then
    { response := some ⟨400, errorObject "invalid_body"
        [("message", JSValue.str "body must be json array")] 400⟩
      connected := false, invoked := none }
  else
    match env.connect (authOf req) with
    | .error msg =>
      match normalizeConnMsg msg with
      | .ok m =>
        { response := some ⟨400, errorObject "connection_failed"
            [("message", JSValue.str m)] 400⟩
          connected := true, invoked := none }
      | .error _ =>
        { response := none, connected := true, invoked := none }
    | .ok () =>
      match route req.segments with
      | none =>
        { response := some ⟨404, errorObject "not_found" [] 404⟩
          connected := true, invoked := none }
      | some (t, act) =>
        match spreadArgs req.body with
        | .error m =>
          { response := some ⟨404, errorObject "not_found"
              [("message", JSValue.str m), ("action", JSValue.str act)] 404⟩
            connected := true, invoked := none }
        | .ok args =>
          match env.invoke t act args with
          | .error m =>
            { response := some ⟨404, errorObject "not_found"
                [("message", JSValue.str m), ("action", JSValue.str act)] 404⟩
              connected := true, invoked := some (t, act, args) }
          | .ok raw =>
            match parse raw with
            | .error m =>
              { response := some ⟨404, errorObject "not_found"
                  [("message", JSValue.str m), ("action", JSValue.str act)] 404⟩
                connected := true, invoked := some (t, act, args) }
            | .ok v =>
              { response := some ⟨200, v⟩
                connected := true, invoked := some (t, act, args) }

/-! The timeout guard race.

`app.all("*")` arms `setTimeout(cb, 10 * 1000)` for every request. The
callback and the normal completion race on the shared response object;
Node only ever writes the first response (`res.json` after the headers are
sent throws instead of writing), and the callback additionally checks
`res.headersSent` itself. The race is modelled as a sequence of events
applied to the response state. -/

/-- The deadline of the guard, in milliseconds (`10 * 1000`). -/
def timeoutMs : Nat := 10 * 1000

/-- The shared response object: whether headers have been sent, and the
responses actually written to the wire. -/
structure ResState where
  headersSent : Bool
  wire : List Resp

/-- Model of `res.status(s); res.json(body)` under Node semantics: writes and marks
headers sent the first time, and never writes a second body (a later call
throws `ERR_HTTP_HEADERS_SENT` without writing). -/
def sendJson (status : Nat) (body : JSValue) (s : ResState) : ResState :=
  if s.headersSent then s
  else { headersSent := true, wire := s.wire ++ [⟨status, body⟩] }

/-- The envelope produced by `error("timeout", null, 500, res)`. -/
def timeoutEnvelope : JSValue := errorObject "timeout" [] 500

/-- The armed timeout callback: `if (res.headersSent) return;` then
`error("timeout", null, 500, res)`. -/
def timeoutFire (s : ResState) : ResState :=
  if s.headersSent then s else sendJson 500 timeoutEnvelope s

/-- An event in the race between the guard and the handler: the deadline
firing, or the dispatch completing with a response to write. -/
inductive RaceEvent where
  | deadline
  | completion (r : Resp)

/-- One race event applied to the response state. -/
def raceStep (s : ResState) : RaceEvent → ResState
  | .deadline => timeoutFire s
  | .completion r => sendJson r.status r.body s

/-- A whole schedule of race events, in temporal order, applied to the
response state. -/
def runRace (events : List RaceEvent) (s : ResState) : ResState :=
  events.foldl raceStep s

/-- The fresh response state a request starts with. -/
def freshRes : ResState := { headersSent := false, wire := [] }

/-! Concrete fixtures used by witnesses and counterexamples. -/

/-- A driver environment where connection always succeeds and every
invocation returns a plain object. -/
def envOk : Env :=
  { connect := fun _ => .ok ()
    invoke := fun _ _ _ => .ok (.direct (.obj [("ok", .num 1)])) }

/-- A driver environment where connection succeeds and every invocation
throws, as when `target[action]` is not a function. -/
def envInvokeErr : Env :=
  { connect := fun _ => .ok ()
    invoke := fun _ _ _ => .error "collection.frobnicate is not a function" }

/-- A driver environment where connection succeeds and every invocation
returns a two-element cursor. -/
def envCursor : Env :=
  { connect := fun _ => .ok ()
    invoke := fun _ _ _ =>
      .ok (.cursor [.obj [("age", .num 30)], .obj [("age", .num 44)]]) }

/-- A POST request with no `Authorization` header. -/
def postReq (segs : List String) (b : JSValue) : Request :=
  { method := "POST", segments := segs, authorization := none, body := b }

/-- A GET request, for the method fallback. -/
def getReq : Request :=
  { method := "GET", segments := ["mydb", "users", "_find"]
    authorization := none, body := .undefined }

/-! Helper lemmas. -/

/-- Once the headers are sent, no race event changes the response state. -/
theorem runRace_sent (events : List RaceEvent) (s : ResState)
    (h : s.headersSent = true) : runRace events s = s := by
  induction events generalizing s with
  | nil => rfl
  | cons e es ih =>
    have hstep : raceStep s e = s := by
      cases e with
      | deadline => simp [raceStep, timeoutFire, h]
      | completion r => simp [raceStep, sendJson, h]
    show runRace es (raceStep s e) = s
    rw [hstep]; exact ih s h

/-- The head part produced by `splitOnChar` is the text before the first
separator. -/
theorem splitOnChar_headD (c : Char) (l : List Char) :
    (splitOnChar c l).headD [] = l.takeWhile (· ≠ c) := by
  induction l with
  | nil => rfl
  | cons x xs ih =>
    by_cases hx : x = c
    · rw [splitOnChar, if_pos hx, List.takeWhile_cons_of_neg]
      · rfl
      · simp [hx]
    · rw [splitOnChar, if_neg hx, List.takeWhile_cons_of_pos (by simp [hx])]
      simpa using ih

/-- A JavaScript split never returns an empty array. -/
theorem splitOnChar_ne_nil (c : Char) (l : List Char) : splitOnChar c l ≠ [] := by
  cases l with
  | nil => simp [splitOnChar]
  | cons x xs =>
    rw [splitOnChar]
    split <;> simp

/-- Concatenating all parts of a split (`parts.join("")`) yields the input
with every separator occurrence deleted. -/
theorem splitOnChar_flatten (c : Char) (l : List Char) :
    (splitOnChar c l).flatten = l.filter (· ≠ c) := by
  induction l with
  | nil => simp [splitOnChar]
  | cons x xs ih =>
    by_cases hx : x = c
    · rw [splitOnChar, if_pos hx, List.filter_cons_of_neg (by simp [hx])]
      simpa using ih
    · rw [splitOnChar, if_neg hx, List.filter_cons_of_pos (by simp [hx])]
      have hne := splitOnChar_ne_nil c xs
      cases h : splitOnChar c xs with
      | nil => exact absurd h hne
      | cons p ps =>
        rw [h] at ih
        simp only [List.headD_cons, List.drop_succ_cons, List.drop_zero,
          List.flatten_cons, List.cons_append]
        rw [← List.flatten_cons, ih]

/-- Concatenating all parts after the first (`parts.shift(); parts.join("")`)
yields the text after the first separator with all later separator
occurrences deleted. -/
theorem splitOnChar_tail_flatten (c : Char) (l : List Char) :
    ((splitOnChar c l).drop 1).flatten
      = ((l.dropWhile (· ≠ c)).drop 1).filter (· ≠ c) := by
  induction l with
  | nil => rfl
  | cons x xs ih =>
    by_cases hx : x = c
    · rw [splitOnChar, if_pos hx, List.dropWhile_cons_of_neg (by simp [hx])]
      simp only [List.drop_succ_cons, List.drop_zero]
      exact splitOnChar_flatten c xs
    · rw [splitOnChar, if_neg hx, List.dropWhile_cons_of_pos (by simp [hx])]
      simpa using ih

/-- Cloning an array preserves its length. -/
theorem fcloneList_length (xs : List JSValue) :
    (fcloneList xs).length = xs.length := by
  induction xs with
  | nil => rfl
  | cons x l ih => simp [fcloneList, ih]

/-- A segment whose first character is not an underscore never matches the
`_:action` pattern. -/
theorem isActionSeg_false_of_head (s : String)
    (h : s.toList.headD ' ' ≠ '_') : isActionSeg s = false := by
  unfold isActionSeg
  cases hl : s.toList with
  | nil => rfl
  | cons c rest =>
    rw [hl] at h
    simp only [List.headD_cons] at h
    simp [h]

/-- When no segment starts with the underscore marker, no action route
matches and only the POST fallback remains. -/
theorem route_none_of_no_marker (segs : List String)
    (h : ∀ s ∈ segs, s.toList.headD ' ' ≠ '_') :
    route segs = none := by
  match segs with
  | [] => rfl
  | [a] =>
    have := isActionSeg_false_of_head a (h a (by simp))
    simp [route, this]
  | [d, a] =>
    have := isActionSeg_false_of_head a (h a (by simp))
    simp [route, this]
  | [d, c, a] =>
    have := isActionSeg_false_of_head a (h a (by simp))
    simp [route, this]
  | _ :: _ :: _ :: _ :: _ => rfl

/-- An invocation only happens on the target and action selected by the
route table for the request path. -/
theorem handle_invoked_route (env : Env) (req : Request)
    (t : Target) (act : String) (args : List JSValue)
    (h : (handle env req).invoked = some (t, act, args)) :
    route req.segments = some (t, act) := by
  unfold handle at h
  split at h
  · simp at h
  · split at h
    · simp at h
    · split at h
      · split at h <;> simp at h
      · rename_i hconn
        split at h
        · simp at h
        · rename_i pair hroute
          split at h
          · simp at h
          · split at h
            · simp at h
              obtain ⟨ht, hact, -⟩ := h
              rw [hroute, ht, hact]
            · split at h <;>
              · simp at h
                obtain ⟨ht, hact, -⟩ := h
                rw [hroute, ht, hact]

/-- Inversion of the route table: a selected target is client, database or
collection level exactly according to the number of path segments before
the final action segment (0, 1 or 2). -/
theorem route_shapes (segs : List String) (t : Target) (act : String)
    (h : route segs = some (t, act)) :
    (∃ a, segs = [a] ∧ isActionSeg a = true ∧ act = segAction a
        ∧ t = Target.client)
    ∨ (∃ d a, segs = [d, a] ∧ isActionSeg a = true ∧ act = segAction a
        ∧ t = Target.db d)
    ∨ (∃ d c a, segs = [d, c, a] ∧ isActionSeg a = true ∧ act = segAction a
        ∧ t = Target.coll d c) := by
  match segs with
  | [] => simp [route] at h
  | [a] =>
    left
    simp only [route] at h
    split at h
    · simp at h
      exact ⟨a, rfl, by assumption, h.2.symm, h.1.symm⟩
    · simp at h
  | [d, a] =>
    right; left
    simp only [route] at h
    split at h
    · rename_i hcond
      simp only [Bool.and_eq_true] at hcond
      simp at h
      exact ⟨d, a, rfl, hcond.2, h.2.symm, h.1.symm⟩
    · simp at h
  | [d, c, a] =>
    right; right
    simp only [route] at h
    split at h
    · rename_i hcond
      simp only [Bool.and_eq_true] at hcond
      simp at h
      exact ⟨d, c, a, rfl, hcond.2, h.2.symm, h.1.symm⟩
    · simp at h
  | _ :: _ :: _ :: _ :: _ => simp [route] at h

/-! Claim C1. -/

/-- C1 (amended): at the moment of invocation the dispatch target is
determined solely by the number of path segments preceding the final
action segment — 0 segments invoke on the client, 1 on that named
database, 2 on that named collection — where the preceding segments are
counted positionally, whether or not they themselves carry the underscore
marker. -/
theorem dispatch_target_by_depth (env : Env) (req : Request)
    (t : Target) (act : String) (args : List JSValue)
    (h : (handle env req).invoked = some (t, act, args)) :
    (∃ a, req.segments = [a] ∧ isActionSeg a = true ∧ act = segAction a
        ∧ t = Target.client)
    ∨ (∃ d a, req.segments = [d, a] ∧ isActionSeg a = true ∧ act = segAction a
        ∧ t = Target.db d)
    ∨ (∃ d c a, req.segments = [d, c, a] ∧ isActionSeg a = true
        ∧ act = segAction a ∧ t = Target.coll d c) :=
  route_shapes req.segments t act (handle_invoked_route env req t act args h)

/-- C1 witness: `POST /mydb/_stats/` invokes `stats` on database `mydb`. -/
theorem dispatch_target_by_depth_witness :
    (handle envOk (postReq ["mydb", "_stats"] (.arr []))).invoked
        = some (Target.db "mydb", "stats", [])
    ∧ ((∃ a, ["mydb", "_stats"] = [a] ∧ isActionSeg a = true
          ∧ "stats" = segAction a ∧ Target.db "mydb" = Target.client)
      ∨ (∃ d a, ["mydb", "_stats"] = [d, a] ∧ isActionSeg a = true
          ∧ "stats" = segAction a ∧ Target.db "mydb" = Target.db d)
      ∨ (∃ d c a, ["mydb", "_stats"] = [d, c, a] ∧ isActionSeg a = true
          ∧ "stats" = segAction a ∧ Target.db "mydb" = Target.coll d c)) :=
  ⟨rfl, dispatch_target_by_depth envOk (postReq ["mydb", "_stats"] (.arr []))
    (Target.db "mydb") "stats" [] rfl⟩

/-- C1 counterexample: on `POST /_foo/_bar/` the final action segment
`_bar` is preceded by zero non-action segments (`_foo` itself starts with
the underscore marker), so the claim as stated requires a client-level
invocation; the code instead dispatches `bar` on the database named
`_foo`. -/
theorem dispatch_target_counterexample :
    ("_foo".toList.headD ' ' = '_')
    ∧ (handle envOk (postReq ["_foo", "_bar"] (.arr []))).invoked
        = some (Target.db "_foo", "bar", [])
    ∧ Target.db "_foo" ≠ Target.client :=
  ⟨by decide, rfl, by decide⟩

/-! Claim C2. -/

/-- C2: a POST whose decoded body is present (truthy) and not an array is
answered 400 `invalid_body`, and `MongoClient.connect` is never attempted
for that request. -/
theorem invalid_body_no_connect (env : Env) (req : Request)
    (hm : req.method = "POST")
    (hp : truthy req.body = true)
    (ha : isArray req.body = false) :
    (handle env req).response = some ⟨400, errorObject "invalid_body"
        [("message", JSValue.str "body must be json array")] 400⟩
    ∧ (handle env req).connected = false := by
  unfold handle
  rw [hm]
  simp [hp, ha]

/-- C2 witness: `POST /mydb/users/_find/` with object body. -/
theorem invalid_body_no_connect_witness :
    (handle envOk (postReq ["mydb", "users", "_find"] (.obj []))).response
      = some ⟨400, errorObject "invalid_body"
          [("message", JSValue.str "body must be json array")] 400⟩
    ∧ (handle envOk (postReq ["mydb", "users", "_find"] (.obj []))).connected
        = false :=
  invalid_body_no_connect envOk _ rfl rfl rfl

/-! Claim C3. -/

/-- C3: whenever the reflective invocation `target[action](...args)` throws
— unknown action name or any failure of the underlying call — the gateway
responds 404 `not_found`, and the envelope carries both the action name
and the underlying error message. -/
theorem unknown_action_not_found (env : Env) (req : Request)
    (t : Target) (act : String) (args : List JSValue) (m : String)
    (hm : req.method = "POST")
    (hb : (truthy req.body && !isArray req.body) = false)
    (hcn : env.connect (authOf req) = .ok ())
    (hr : route req.segments = some (t, act))
    (hsp : spreadArgs req.body = .ok args)
    (hi : env.invoke t act args = .error m) :
    (handle env req).response = some ⟨404, errorObject "not_found"
      [("message", JSValue.str m), ("action", JSValue.str act)] 404⟩ := by
  unfold handle
  rw [hm]
  simp [hb, hcn, hr, hsp, hi]

/-- C3 witness: a collection-level action whose invocation throws. -/
theorem unknown_action_not_found_witness :
    (handle envInvokeErr (postReq ["mydb", "users", "_frobnicate"] (.arr []))).response
      = some ⟨404, errorObject "not_found"
          [("message", JSValue.str "collection.frobnicate is not a function"),
           ("action", JSValue.str "frobnicate")] 404⟩ :=
  unknown_action_not_found envInvokeErr _ (Target.coll "mydb" "users")
    "frobnicate" [] _ rfl rfl rfl (by decide) rfl rfl

/-! Claim C4. -/

/-- C4: the guard deadline is `10 * 1000` milliseconds, and on every
schedule in which the deadline fires before any response was produced,
exactly one response — 500 with reason `timeout` — reaches the wire,
however many late dispatch completions (or stray events) follow: Node
refuses to write a body once the headers are sent. -/
theorem timeout_single_response (late : List RaceEvent) :
    timeoutMs = 10 * 1000
    ∧ runRace (RaceEvent.deadline :: late) freshRes
        = { headersSent := true, wire := [⟨500, timeoutEnvelope⟩] } := by
  refine ⟨rfl, ?_⟩
  show runRace late (raceStep freshRes .deadline) = _
  have h1 : raceStep freshRes .deadline
      = { headersSent := true, wire := [⟨500, timeoutEnvelope⟩] } := rfl
  rw [h1]
  exact runRace_sent late _ rfl

/-! Claim C5. -/

/-- C5 (amended): for a `Basic` header whose decoding contains a colon, the
extracted user is the decoded text before the first colon, and the
extracted password is the remainder after the first colon with every
further colon character REMOVED (the code rejoins the remaining split
parts with the empty separator), not preserved. -/
theorem auth_first_colon_split (h : String)
    (_hc : ':' ∈ decodeHeader h) :
    extractAuth h
      = { user := String.mk ((decodeHeader h).takeWhile (· ≠ ':'))
          password := String.mk
            ((((decodeHeader h).dropWhile (· ≠ ':')).drop 1).filter (· ≠ ':')) } := by
  simp only [extractAuth]
  rw [splitOnChar_headD, splitOnChar_tail_flatten]

/-- C5 witness: the header `Basic dTpwOnE=` decodes to `u:p:q`. -/
theorem auth_first_colon_split_witness :
    (':' ∈ decodeHeader "Basic dTpwOnE=")
    ∧ extractAuth "Basic dTpwOnE="
        = { user := String.mk ((decodeHeader "Basic dTpwOnE=").takeWhile (· ≠ ':'))
            password := String.mk
              ((((decodeHeader "Basic dTpwOnE=").dropWhile (· ≠ ':')).drop 1).filter (· ≠ ':')) } :=
  ⟨by decide, auth_first_colon_split _ (by decide)⟩

/-- C5 counterexample: `Basic dTpwOnE=` decodes to `u:p:q`; the claim
requires password `p:q` (later colons preserved), but the code yields
`pq`. -/
theorem auth_password_counterexample :
    decodeHeader "Basic dTpwOnE=" = ['u', ':', 'p', ':', 'q']
    ∧ extractAuth "Basic dTpwOnE=" = { user := "u", password := "pq" }
    ∧ ("pq" : String) ≠ "p:q" :=
  ⟨by decide, by decide, by decide⟩

/-! Claim C6. -/

/-- C6: when the invocation yields a cursor, the 200 response body is the
array of ALL the cursor elements, cloned element-wise in order, with the
same length as the cursor stream — never a partial sequence or an
unresolved handle. -/
theorem cursor_result_materialized (env : Env) (req : Request)
    (t : Target) (act : String) (args : List JSValue) (elems : List JSValue)
    (hm : req.method = "POST")
    (hb : (truthy req.body && !isArray req.body) = false)
    (hcn : env.connect (authOf req) = .ok ())
    (hr : route req.segments = some (t, act))
    (hsp : spreadArgs req.body = .ok args)
    (hi : env.invoke t act args = .ok (.cursor elems)) :
    (handle env req).response = some ⟨200, .arr (fcloneList elems)⟩
    ∧ (fcloneList elems).length = elems.length := by
  constructor
  · unfold handle
    rw [hm]
    simp [hb, hcn, hr, hsp, hi, parse, fclone]
  · exact fcloneList_length elems

/-- C6 witness: `POST /mydb/users/_find/` against a two-document cursor. -/
theorem cursor_result_materialized_witness :
    (handle envCursor (postReq ["mydb", "users", "_find"] (.arr []))).response
      = some ⟨200, .arr (fcloneList [.obj [("age", .num 30)], .obj [("age", .num 44)]])⟩
    ∧ (fcloneList [JSValue.obj [("age", .num 30)], .obj [("age", .num 44)]]).length
        = ([JSValue.obj [("age", .num 30)], .obj [("age", .num 44)]]).length :=
  cursor_result_materialized envCursor _ (Target.coll "mydb" "users") "find" [] _
    rfl rfl rfl (by decide) rfl rfl

/-! Claim C7. -/

/-- C7 (code bug): the normalization step `parse` is NOT total on raw
results — it throws a `TypeError` when the result is `null` or `undefined`,
because `object.constructor` is read before any guard. Common driver calls
return exactly these values (`findOne` with no match returns `null`;
`close` returns `undefined`), and the throw is then misreported by the
caller as 404 `not_found`. -/
theorem parse_throws_on_null_result :
    parse (RawResult.direct JSValue.null)
      = Except.error "Cannot read properties of null (reading constructor)"
    ∧ parse (RawResult.direct JSValue.undefined)
      = Except.error "Cannot read properties of undefined (reading constructor)" :=
  ⟨rfl, rfl⟩

/-! Claim C8. -/

/-- C8: every request whose method is not POST falls through to the final
`app.all("*")` and is answered 405 `method_not_allowed`, carrying the
lower-cased method name. -/
theorem non_post_method_not_allowed (env : Env) (req : Request)
    (hm : req.method ≠ "POST") :
    (handle env req).response = some ⟨405, errorObject "method_not_allowed"
      [("method", JSValue.str (jsToLower req.method))] 405⟩ := by
  unfold handle
  rw [if_pos hm]

/-- C8 witness: `GET /mydb/users/_find/` yields 405. -/
theorem non_post_witness :
    (handle envOk getReq).response = some ⟨405, errorObject "method_not_allowed"
      [("method", JSValue.str (jsToLower "GET"))] 405⟩ :=
  non_post_method_not_allowed envOk getReq (by decide)

/-! Claim C9. -/

/-- C9 (amended): a POST whose path has no underscore-marked segment is
answered 404 `not_found` — provided the body guard does not trip (body
falsy or an array) and the store connection succeeds; otherwise those
earlier middleware stages answer 400 first. -/
theorem no_marker_not_found (env : Env) (req : Request)
    (hm : req.method = "POST")
    (hb : (truthy req.body && !isArray req.body) = false)
    (hcn : env.connect (authOf req) = .ok ())
    (hs : ∀ s ∈ req.segments, s.toList.headD ' ' ≠ '_') :
    (handle env req).response = some ⟨404, errorObject "not_found" [] 404⟩ := by
  unfold handle
  rw [hm]
  simp [hb, hcn, route_none_of_no_marker _ hs]

/-- C9 witness: `POST /mydb/users/find/` with array body and a healthy
store. -/
theorem no_marker_not_found_witness :
    ((∀ s ∈ (postReq ["mydb", "users", "find"] (.arr [])).segments,
        s.toList.headD ' ' ≠ '_'))
    ∧ (handle envOk (postReq ["mydb", "users", "find"] (.arr []))).response
        = some ⟨404, errorObject "not_found" [] 404⟩ :=
  ⟨by decide, no_marker_not_found envOk _ rfl rfl rfl (by decide)⟩

/-- C9 counterexample: `POST /mydb/users/find/` with an object body (what
`express.json()` produces when no JSON array body is supplied) meets the
claim hypotheses — POST, no marker segment — yet is answered 400
`invalid_body`, not 404. -/
theorem no_marker_counterexample :
    (∀ s ∈ (postReq ["mydb", "users", "find"] (.obj [])).segments,
        s.toList.headD ' ' ≠ '_')
    ∧ (handle envOk (postReq ["mydb", "users", "find"] (.obj []))).response
        = some ⟨400, errorObject "invalid_body"
            [("message", JSValue.str "body must be json array")] 400⟩
    ∧ (400 : Nat) ≠ 404 :=
  ⟨by decide, rfl, by decide⟩

/-! Claim C10. -/

/-- C10: every failure response the gateway writes — whether from the
route table (`invalid_body`, `connection_failed`, `not_found`,
`method_not_allowed`) or from the timeout guard (`timeout`) — has body
`{ error: { reason, ...context, status } }` with the envelope status equal
to the HTTP status set on the response. -/
theorem error_envelope_status :
    (∀ (env : Env) (req : Request) (r : Resp),
        (handle env req).response = some r → r.status ≠ 200 →
        ∃ reason context, r.body = errorObject reason context r.status
          ∧ reason ∈ ["invalid_body", "connection_failed", "not_found",
              "timeout", "method_not_allowed"])
    ∧ (∀ s : ResState, s.headersSent = false →
        (timeoutFire s).wire = s.wire ++ [⟨500, errorObject "timeout" [] 500⟩]) := by
  constructor
  · intro env req r h h200
    unfold handle at h
    split at h
    · injection h with h'
      subst h'
      exact ⟨"method_not_allowed", _, rfl, by simp⟩
    · split at h
      · injection h with h'
        subst h'
        exact ⟨"invalid_body", _, rfl, by simp⟩
      · split at h
        · split at h
          · injection h with h'
            subst h'
            exact ⟨"connection_failed", _, rfl, by simp⟩
          · exact Option.noConfusion h
        · split at h
          · injection h with h'
            subst h'
            exact ⟨"not_found", _, rfl, by simp⟩
          · split at h
            · injection h with h'
              subst h'
              exact ⟨"not_found", _, rfl, by simp⟩
            · split at h
              · injection h with h'
                subst h'
                exact ⟨"not_found", _, rfl, by simp⟩
              · split at h
                · injection h with h'
                  subst h'
                  exact ⟨"not_found", _, rfl, by simp⟩
                · injection h with h'
                  subst h'
                  exact absurd rfl h200
  · intro s hs
    simp [timeoutFire, hs, sendJson, timeoutEnvelope]

/-- C10 witness: the 405 envelope of a GET request, and the timeout write
on a fresh response. -/
theorem error_envelope_status_witness :
    (∃ reason context,
        errorObject "method_not_allowed" [("method", JSValue.str "get")] 405
          = errorObject reason context 405
        ∧ reason ∈ ["invalid_body", "connection_failed", "not_found",
            "timeout", "method_not_allowed"])
    ∧ (timeoutFire freshRes).wire
        = freshRes.wire ++ [⟨500, errorObject "timeout" [] 500⟩] :=
  ⟨error_envelope_status.1 envOk getReq
      ⟨405, errorObject "method_not_allowed" [("method", JSValue.str "get")] 405⟩
      rfl (by decide),
   error_envelope_status.2 freshRes rfl⟩

end HttpMongo
